import Mathlib

/-!
Verification development for the 3d-rigging bone-normalization module
(`src/3d-rigging/BoneMapper.ts`) and the FBX asset validator
(`FBXValidator.validateFBXGroup`).

The embedding works over bone/track names as Lean `String`s.  JavaScript
case-insensitive regex matching (`/…/i.test(name)`) is modelled by lowering
the name with `Char.toLower` (ASCII case folding, which is what every rule
literal and every name in scope uses) and testing the lowered character list
against an explicit existential-semantics matcher for the exact constructs
that occur in the rule table: anchored literal alternation, unanchored
literal alternation (substring search), `A.*B` gaps, and negative lookahead
`(?!q)` applied at the end position of a group match.  `RegExp.test` returns
whether any match exists, which is exactly the existential semantics used
here.  (JS `.` does not match a newline; no theorem below quantifies over a
pattern containing `.*` at a non-concrete input, so this nuance is inert.)
-/

namespace BoneMapper

/-- Characters of a string literal, used to spell out regex literals. -/
def w (s : String) : List Char := s.data

/-- Lower-cased character list of a name; models `/…/i` by case folding. -/
def lcs (s : String) : List Char := s.data.map Char.toLower

/-- Tests whether `p` occurs as a contiguous substring of `s` (JS unanchored literal match). -/
def hasSub (p s : List Char) : Bool := s.tails.any fun t => p.isPrefixOf t

/-- Some literal of `ps` occurs in `s`: models `/(a|b|c)/`. -/
def hasAny (ps : List (List Char)) (s : List Char) : Bool := ps.any fun p => hasSub p s

/-- Full-string match against one of finitely many literals: models `/^(a|b)$/`. -/
def fullAny (ps : List (List Char)) (s : List Char) : Bool := ps.any fun p => s == p

/-- Models an occurrence of `a.*b` inside `s`: `a` somewhere, `b` anywhere at
or after the end of that occurrence of `a`. -/
def seqGap (a b s : List Char) : Bool :=
  s.tails.any fun t => a.isPrefixOf t && hasSub b (t.drop a.length)

/-- Models `(lit₁|lit₂|…)(?!neg)`: some literal occurs in `s` ending at a
position not followed by `neg`. -/
def litsNotFollowed (lits : List (List Char)) (neg : List Char) (s : List Char) : Bool :=
  lits.any fun l => s.tails.any fun t =>
    l.isPrefixOf t && !(neg.isPrefixOf (t.drop l.length))

/-- Models `a.*b(?!n₁)…(?!nₖ)` occurring in `s`: an occurrence of `a`, then an
occurrence of `b` at or after it, whose end position is followed by none of
`negs`. -/
def gapNotFollowed (a b : List Char) (negs : List (List Char)) (s : List Char) : Bool :=
  s.tails.any fun t => a.isPrefixOf t &&
    ((t.drop a.length).tails.any fun u => b.isPrefixOf u &&
      (negs.all fun n => !(n.isPrefixOf (u.drop b.length))))

/-- Models `/(left.*arm(?!fur)|leftarm|l_arm|mixamorig:leftarm)(?!forearm)/i` and its
right-hand mirror, parameterised by the side.  The trailing `(?!forearm)`
applies at the end position of the group match; inside the first alternative
the inner `(?!fur)` and the outer `(?!forearm)` apply at the same position. -/
def armPat (side ab : String) (s : List Char) : Bool :=
  litsNotFollowed [w (side ++ "arm"), w (ab ++ "_arm"), w ("mixamorig:" ++ side ++ "arm")]
      (w "forearm") s
  || gapNotFollowed (w side) (w "arm") [w "fur", w "forearm"] s

/-- Models `/(left.*leg(?!upleg)|leftleg|l_leg|mixamorig:leftleg)(?!upleg)/i` and its
right-hand mirror. -/
def legPat (side ab : String) (s : List Char) : Bool :=
  litsNotFollowed [w (side ++ "leg"), w (ab ++ "_leg"), w ("mixamorig:" ++ side ++ "leg")]
      (w "upleg") s
  || gapNotFollowed (w side) (w "leg") [w "upleg"] s

/-- Models the `/(left.*X|leftX|l_X|mixamorig:leftX)/i`-shaped rules (shoulder, forearm,
hand, foot, toe) and the hip rule's shape. -/
def sidePat (side ab key : String) (s : List Char) : Bool :=
  seqGap (w side) (w key) s
  || hasAny [w (side ++ key), w (ab ++ "_" ++ key), w ("mixamorig:" ++ side ++ key)] s

/-- Models `/(left.*hip|lefthip|leftupleg|l_hip|l_upleg|mixamorig:leftupleg)/i` and
its mirror. -/
def hipPat (side ab : String) (s : List Char) : Bool :=
  seqGap (w side) (w "hip") s
  || hasAny [w (side ++ "hip"), w (side ++ "upleg"), w (ab ++ "_hip"),
             w (ab ++ "_upleg"), w ("mixamorig:" ++ side ++ "upleg")] s

/-- The four anchored exact-match rules of `BONE_PATTERNS`, as predicates on
the lowered name.  `mixamorig[:_]?hips` expands to its three variants. -/
def hipsExact (s : List Char) : Bool :=
  fullAny [w "armature", w "root", w "hips",
           w "mixamorighips", w "mixamorig:hips", w "mixamorig_hips"] s

def spine2Exact (s : List Char) : Bool := fullAny [w "spine2", w "mixamorig:spine2"] s

def spine1Exact (s : List Char) : Bool := fullAny [w "spine1", w "mixamorig:spine1"] s

def spineExact (s : List Char) : Bool := fullAny [w "spine", w "mixamorig:spine"] s

/-- The rule table `BONE_PATTERNS` evaluated in table order on the lowered name: the first
rule whose pattern matches wins (`break` in `autoMapBones`).  Mirrors the
ordered rule table of `BoneMapper.BONE_PATTERNS` line by line. -/
def classifyL (s : List Char) : Option String :=
  if hipsExact s then some "Hips"
  else if hasAny [w "hips", w "root", w "armature"] s then some "Hips"
  else if spine2Exact s then some "Spine2"
  else if spine1Exact s then some "Spine1"
  else if spineExact s then some "Spine"
  else if hasAny [w "spine2", w "torso2", w "chest2"] s then some "Spine2"
  else if hasAny [w "spine1", w "torso1", w "chest1"] s then some "Spine1"
  else if hasAny [w "spine", w "chest", w "torso", w "upperback", w "lowerback"] s then
    some "Spine"
  else if hasAny [w "neck", w "mixamorig:neck"] s then some "Neck"
  else if hasAny [w "head", w "mixamorig:head"] s then some "Head"
  else if sidePat "left" "l" "shoulder" s then some "LeftShoulder"
  else if armPat "left" "l" s then some "LeftArm"
  else if sidePat "left" "l" "forearm" s then some "LeftForeArm"
  else if sidePat "left" "l" "hand" s then some "LeftHand"
  else if sidePat "right" "r" "shoulder" s then some "RightShoulder"
  else if armPat "right" "r" s then some "RightArm"
  else if sidePat "right" "r" "forearm" s then some "RightForeArm"
  else if sidePat "right" "r" "hand" s then some "RightHand"
  else if hipPat "left" "l" s then some "LeftHip"
  else if legPat "left" "l" s then some "LeftLeg"
  else if sidePat "left" "l" "foot" s then some "LeftFoot"
  else if sidePat "left" "l" "toe" s then some "LeftToe"
  else if hipPat "right" "r" s then some "RightHip"
  else if legPat "right" "r" s then some "RightLeg"
  else if sidePat "right" "r" "foot" s then some "RightFoot"
  else if sidePat "right" "r" "toe" s then some "RightToe"
  else none

/-- Classification of one bone name: the inner loop of `autoMapBones`
(first matching pattern of `BONE_PATTERNS`, case-insensitively). -/
def classify (name : String) : Option String := classifyL (lcs name)

/-- The function `autoMapBones`: builds the original-name → canonical-name mapping in bone
order.  The JS `Map` keeps one entry per key at its first insertion position;
re-setting an existing key stores the same value (classification is a function
of the name), so it is a no-op, modelled by the `any` guard. -/
def autoMapBones (bones : List String) : List (String × String) :=
  bones.foldl
    (fun m name =>
      match classify name with
      | some t => if m.any (fun p => p.1 == name) then m else m ++ [(name, t)]
      | none => m)
    []

/-- Combines `findBoneByName` and the in-place rename of one mapping entry in
`applyMapping`: rename the first bone whose current name is `o` to `s`;
if none matches, the entry is skipped (non-fatal). -/
def renameFirst (bones : List String) (o s : String) : List String :=
  match bones with
  | [] => []
  | b :: bs => if b = o then s :: bs else b :: renameFirst bs o s

/-- The function `applyMapping`: iterate the mapping entries in insertion order, renaming
the first bone carrying each original name. -/
def applyMapping (bones : List String) (m : List (String × String)) : List String :=
  m.foldl (fun bs p => renameFirst bs p.1 p.2) bones

/-- One track rename of `applyMappingToAnimations`: split the track name at
its first `'.'` (`indexOf`); no dot means the track is skipped; otherwise if
the prefix is a mapping key, the name becomes canonical-name ++ suffix (the
suffix keeps its leading separator verbatim). -/
def rewriteTrack (m : List (String × String)) (name : String) : String :=
  match name.data.dropWhile (fun ch => ch != '.') with
  | [] => name
  | suf =>
    match List.lookup (String.mk (name.data.takeWhile fun ch => ch != '.')) m with
    | some c => String.mk (c.data ++ suf)
    | none => name

/-- The function `applyMappingToAnimations`: every track of every clip is renamed in
place; clips and tracks are neither added, removed, nor reordered. -/
def applyMappingToAnimations (clips : List (List String)) (m : List (String × String)) :
    List (List String) :=
  clips.map fun clip => clip.map (rewriteTrack m)

/-- The `requiredBones` list local to `BoneMapper.validateBones`. -/
def requiredBones : List String :=
  ["Hips", "Spine", "Head", "LeftArm", "RightArm", "LeftLeg", "RightLeg"]

/-- Result record of `BoneMapper.validateBones`. -/
structure BoneValidation where
  isValid : Bool
  missingBones : List String
  foundBones : List String
  deriving DecidableEq, Repr

/-- The function `validateBones` over the skeleton's bone names: `foundBones` are the
names that are required, `missingBones` the required names not found, and
`isValid` holds iff nothing is missing. -/
def validateBones (names : List String) : BoneValidation :=
  let foundBones := names.filter fun n => requiredBones.contains n
  let missingBones := requiredBones.filter fun r => !(foundBones.contains r)
  { isValid := missingBones.isEmpty
    missingBones := missingBones
    foundBones := foundBones }

end BoneMapper

namespace FBXValidator

/-- A skinned mesh as the validator observes it: its bounding-box size (the
result of the external `Box3.setFromObject`/`getSize` measurement, carried as
given data since geometry lives in the excluded graphics library), its
optional skeleton (the bones, by name), and its optional material list (per
material, whether a texture map is set).  The bounding-box min/max pair is
not modelled separately — only its componentwise difference (the size) is
ever consulted. -/
structure SMesh where
  sizeX : Rat
  sizeY : Rat
  sizeZ : Rat
  skeleton : Option (List String)
  materials : Option (List Bool)
  deriving DecidableEq, Repr

/-- A node of the asset's object graph: an optional skinned-mesh payload and
an ordered child list.  `Object3D.traverse` visits the node, then each child
subtree, in order (depth-first preorder). -/
inductive Obj where
  | node : Option SMesh → List Obj → Obj

mutual

/-- All skinned meshes of an object, in traversal (preorder) order. -/
def objMeshes : Obj → List SMesh
  | .node p cs => p.toList ++ objsMeshes cs

/-- All skinned meshes of a forest, in traversal order. -/
def objsMeshes : List Obj → List SMesh
  | [] => []
  | o :: os => objMeshes o ++ objsMeshes os

end

/-- The loaded FBX group: its child objects (the group node itself is never a
skinned mesh) and the number of animation clips (`fbx.animations?.length || 0`;
curves are opaque to the validator). -/
structure FBXGroup where
  children : List Obj
  animCount : Nat

/-- The error push sites of `validateFBXGroup`, one tag per site (the source
pushes a small fixed group of message strings at each site; the message text,
including the `toFixed` size rendering, is presentation only). -/
inductive VErr where
  | noSkinnedMesh
  | zeroSize
  | noSkeleton
  | noBones
  | tooFewBones
  deriving DecidableEq, Repr

/-- The warning push sites of `validateFBXGroup`. -/
inductive VWarn where
  | smallMesh
  | missingBones (missing : List String)
  | noAnimations
  | noTextures
  deriving DecidableEq, Repr

/-- The `info` record of `FBXValidationResult` (size carried as the three
measured components; the raw min/max bounds are not modelled). -/
structure VInfo where
  hasMesh : Bool
  meshType : Option String
  boneCount : Nat
  animationCount : Nat
  hasTextures : Bool
  meshSize : Option (Rat × Rat × Rat)
  deriving DecidableEq, Repr

/-- The report record `FBXValidationResult`. -/
structure VReport where
  isValid : Bool
  errors : List VErr
  warnings : List VWarn
  info : VInfo
  deriving DecidableEq, Repr

/-- The initial `info` literal of `validateFBXGroup`. -/
def emptyInfo : VInfo :=
  { hasMesh := false, meshType := none, boneCount := 0, animationCount := 0,
    hasTextures := false, meshSize := none }

/-- The constant `FBXValidator.REQUIRED_BONES`. -/
def REQUIRED_BONES : List String :=
  ["Hips", "Spine", "Head", "LeftArm", "RightArm", "LeftLeg", "RightLeg"]

/-- The constant `FBXValidator.MIN_BONE_COUNT`. -/
def MIN_BONE_COUNT : Nat := 20

/-- The Mixamo-convention expected bones of the bone-name check. -/
def mixamoBones : List String :=
  ["mixamorigHips", "mixamorigSpine", "mixamorigHead",
   "mixamorigLeftArm", "mixamorigRightArm",
   "mixamorigLeftUpLeg", "mixamorigRightUpLeg"]

/-- Step 2's error: zero size along any axis is critical. -/
def sizeErrs (mesh : SMesh) : List VErr :=
  if mesh.sizeX = 0 ∨ mesh.sizeY = 0 ∨ mesh.sizeZ = 0 then [.zeroSize] else []

/-- Step 2's warning: height below `0.1` units. -/
def sizeWarns (mesh : SMesh) : List VWarn :=
  if mesh.sizeY < (1 : Rat) / 10 then [.smallMesh] else []

/-- The `info` fields set once a mesh is found and measured (steps 1–2). -/
def meshInfo (mesh : SMesh) : VInfo :=
  { emptyInfo with
    hasMesh := true, meshType := some "SkinnedMesh",
    meshSize := some (mesh.sizeX, mesh.sizeY, mesh.sizeZ) }

/-- Step 4: the bone-name check.  If any bone name contains `mixamorig`
(case-insensitively), the Mixamo-prefixed variants are expected instead of
the bare canonical names; missing expected bones are a warning. -/
def boneNameWarns (bones : List String) : List VWarn :=
  let hasMixamo := bones.any fun n => BoneMapper.hasSub (BoneMapper.w "mixamorig") (BoneMapper.lcs n)
  let expected := if hasMixamo then mixamoBones else REQUIRED_BONES
  let missing := expected.filter fun bn => !(bones.contains bn)
  if missing.isEmpty then [] else [.missingBones missing]

/-- Steps 4–6 once the skeleton is present and non-empty: bone-count
threshold (critical), bone names, animation count, textures (warnings). -/
def validateWithBones (g : FBXGroup) (mesh : SMesh) (bones : List String) : VReport :=
  let errs := sizeErrs mesh ++ (if bones.length < MIN_BONE_COUNT then [.tooFewBones] else [])
  let hasTex := match mesh.materials with
    | some mats => mats.any id
    | none => false
  let warns := sizeWarns mesh ++ boneNameWarns bones
      ++ (if g.animCount = 0 then [.noAnimations] else [])
      ++ (match mesh.materials with
          | some _ => if hasTex then [] else [.noTextures]
          | none => [])
  { isValid := errs.isEmpty
    errors := errs
    warnings := warns
    info := { meshInfo mesh with
              boneCount := bones.length, animationCount := g.animCount,
              hasTextures := hasTex } }

/-- Steps 2–6 once a skinned mesh has been selected: measure it, then check
the skeleton (missing skeleton and empty bone list return immediately). -/
def validateWithMesh (g : FBXGroup) (mesh : SMesh) : VReport :=
  match mesh.skeleton with
  | none =>
    { isValid := false, errors := sizeErrs mesh ++ [.noSkeleton],
      warnings := sizeWarns mesh, info := meshInfo mesh }
  | some bones =>
    if bones.length = 0 then
      { isValid := false, errors := sizeErrs mesh ++ [.noBones],
        warnings := sizeWarns mesh,
        info := { meshInfo mesh with boneCount := 0 } }
    else validateWithBones g mesh bones

/-- The function `FBXValidator.validateFBXGroup`.  The traversal callback overwrites its
`mesh` variable at every skinned-mesh node, so the mesh actually validated is
the last one in traversal order (`getLast?`); no mesh at all is the first
critical early return. -/
def validateFBXGroup (g : FBXGroup) : VReport :=
  match (objsMeshes g.children).getLast? with
  | none => { isValid := false, errors := [.noSkinnedMesh], warnings := [], info := emptyInfo }
  | some mesh => validateWithMesh g mesh

/-- Modelled from the spec: the spec's §4.2 check 1 selects "the first node
with a tagged skinned-mesh role" in tree traversal; this definition follows
those words (for comparison against `validateFBXGroup`, which takes the last). -/
def firstSkinnedMesh (g : FBXGroup) : Option SMesh := (objsMeshes g.children).head?

end FBXValidator

/-! ## Concrete assets used by counterexamples and witnesses -/

namespace Examples

open FBXValidator

/-- A skinned mesh with degenerate (zero) size and no skeleton. -/
def meshNoSkelZero : SMesh := ⟨0, 0, 0, none, none⟩

/-- A group containing only `meshNoSkelZero`. -/
def gNoSkelZero : FBXGroup := ⟨[Obj.node (some meshNoSkelZero) []], 0⟩

/-- A skinned mesh of healthy size with no skeleton. -/
def meshNoSkelOk : SMesh := ⟨1, 1, 1, none, none⟩

/-- A group containing only `meshNoSkelOk`. -/
def gNoSkelOk : FBXGroup := ⟨[Obj.node (some meshNoSkelOk) []], 0⟩

/-- A skinned mesh whose skeleton has five bones. -/
def meshFive : SMesh := ⟨1, 1, 1, some ["a", "b", "c", "d", "e"], none⟩

/-- A group containing only `meshFive`. -/
def gFive : FBXGroup := ⟨[Obj.node (some meshFive) []], 0⟩

/-- A skinned mesh whose skeleton has thirty bones. -/
def meshThirty : SMesh := ⟨1, 1, 1, some (List.replicate 30 "Bone"), none⟩

/-- A group whose traversal meets `meshThirty` first and `meshFive` second. -/
def gTwoMeshes : FBXGroup :=
  ⟨[Obj.node (some meshThirty) [], Obj.node (some meshFive) []], 0⟩

end Examples

/-! ## Helper lemmas (shared) -/

namespace BoneMapper

/-- A list filtered by the negation of `p` is empty iff `p` holds of every
element. -/
theorem isEmpty_filter_not {α : Type} (p : α → Bool) (l : List α) :
    (l.filter fun a => !(p a)).isEmpty = l.all p := by
  induction l with
  | nil => rfl
  | cons a t ih =>
    cases h : p a <;>
      simp [List.filter_cons, h, ih, List.isEmpty_cons, List.all_cons]

/-- The boolean `List.contains` decides membership. -/
theorem contains_true_iff {α : Type} [DecidableEq α] (l : List α) (a : α) :
    l.contains a = true ↔ a ∈ l := by
  rw [List.contains]
  exact List.elem_iff

/-- For a required name, membership in the found-bones filter is membership in
the skeleton's name list. -/
theorem contains_found_eq_contains (names : List String) (r : String)
    (hr : r ∈ requiredBones) :
    ((names.filter fun n => requiredBones.contains n).contains r) = names.contains r := by
  by_cases h : r ∈ names
  · have hf : r ∈ names.filter fun n => requiredBones.contains n := by
      rw [List.mem_filter]
      exact ⟨h, (contains_true_iff requiredBones r).mpr hr⟩
    rw [(contains_true_iff _ r).mpr hf, (contains_true_iff names r).mpr h]
  · have hf : r ∉ names.filter fun n => requiredBones.contains n := by
      rw [List.mem_filter]
      exact fun hc => h hc.1
    cases h1 : (names.filter fun n => requiredBones.contains n).contains r with
    | false =>
      cases h2 : names.contains r with
      | false => rfl
      | true => exact absurd ((contains_true_iff names r).mp h2) h
    | true => exact absurd ((contains_true_iff _ r).mp h1) hf

/-- The rename of one entry never changes the number of bones. -/
theorem renameFirst_length (bones : List String) (o s : String) :
    (renameFirst bones o s).length = bones.length := by
  induction bones with
  | nil => rfl
  | cons b bs ih =>
    by_cases h : b = o <;> simp [renameFirst, h, ih]

/-- The function `applyMapping` never changes the number of bones. -/
theorem applyMapping_length (m : List (String × String)) (bones : List String) :
    (applyMapping bones m).length = bones.length := by
  induction m generalizing bones with
  | nil => rfl
  | cons p t ih =>
    show (applyMapping (renameFirst bones p.1 p.2) t).length = bones.length
    rw [ih, renameFirst_length]

/-- A bone whose name differs from the entry's original name is untouched by
`renameFirst`. -/
theorem renameFirst_getElem?_ne (bones : List String) (o s b : String) (i : Nat)
    (hb : bones[i]? = some b) (hne : b ≠ o) :
    (renameFirst bones o s)[i]? = some b := by
  induction bones generalizing i with
  | nil => simp at hb
  | cons x xs ih =>
    by_cases h : x = o
    · cases i with
      | zero =>
        simp at hb
        exact absurd (hb ▸ h) hne
      | succ j => simpa [renameFirst, h] using hb
    · cases i with
      | zero => simpa [renameFirst, h] using hb
      | succ j =>
        simp only [renameFirst, if_neg h, List.getElem?_cons_succ] at hb ⊢
        exact ih j hb

/-- A bone whose name is not among the mapping's keys is untouched by
`applyMapping`. -/
theorem applyMapping_getElem?_not_key (m : List (String × String)) (bones : List String)
    (i : Nat) (b : String) (hb : bones[i]? = some b) (hk : ∀ p ∈ m, b ≠ p.1) :
    (applyMapping bones m)[i]? = some b := by
  induction m generalizing bones with
  | nil => exact hb
  | cons p t ih =>
    show (applyMapping (renameFirst bones p.1 p.2) t)[i]? = some b
    exact ih (renameFirst bones p.1 p.2)
      (renameFirst_getElem?_ne bones p.1 p.2 b i hb (hk p (List.mem_cons_self p t)))
      (fun q hq => hk q (List.mem_cons_of_mem p hq))

/-- Splitting a dot-free prefix followed by a literal dot. -/
theorem takeWhile_dropWhile_dot (pre suf : List Char) (h : ∀ ch ∈ pre, ch ≠ '.') :
    (pre ++ '.' :: suf).takeWhile (fun ch => ch != '.') = pre ∧
    (pre ++ '.' :: suf).dropWhile (fun ch => ch != '.') = '.' :: suf := by
  induction pre with
  | nil => constructor <;> simp [List.takeWhile, List.dropWhile]
  | cons a t ih =>
    have ha : (a != '.') = true := by
      simpa using h a (List.mem_cons_self a t)
    have ht := ih fun ch hch => h ch (List.mem_cons_of_mem a hch)
    constructor <;>
      simp [List.takeWhile_cons, List.dropWhile_cons, ha, ht.1, ht.2]

end BoneMapper

/-- A list extended on the right by one element is never empty. -/
theorem isEmpty_append_singleton {α : Type} (l : List α) (a : α) :
    (l ++ [a]).isEmpty = false := by
  cases l <;> rfl

namespace FBXValidator

/-- Evaluates `validateFBXGroup` when the traversal finds no skinned mesh. -/
theorem validateFBXGroup_no_mesh (g : FBXGroup)
    (hm : (objsMeshes g.children).getLast? = none) :
    validateFBXGroup g =
      { isValid := false, errors := [.noSkinnedMesh], warnings := [], info := emptyInfo } := by
  unfold validateFBXGroup
  rw [hm]

/-- Shows `validateFBXGroup` validates the last skinned mesh in traversal order. -/
theorem validateFBXGroup_last (g : FBXGroup) (m : SMesh)
    (hm : (objsMeshes g.children).getLast? = some m) :
    validateFBXGroup g = validateWithMesh g m := by
  unfold validateFBXGroup
  rw [hm]

/-- Evaluates `validateWithMesh` at a mesh with no skeleton. -/
theorem validateWithMesh_skeleton_none (g : FBXGroup) (m : SMesh)
    (hs : m.skeleton = none) :
    validateWithMesh g m =
      { isValid := false, errors := sizeErrs m ++ [.noSkeleton],
        warnings := sizeWarns m, info := meshInfo m } := by
  unfold validateWithMesh
  rw [hs]

/-- Evaluates `validateWithMesh` at a mesh with a skeleton. -/
theorem validateWithMesh_skeleton_some (g : FBXGroup) (m : SMesh) (bones : List String)
    (hs : m.skeleton = some bones) :
    validateWithMesh g m =
      if bones.length = 0 then
        { isValid := false, errors := sizeErrs m ++ [.noBones],
          warnings := sizeWarns m,
          info := { meshInfo m with boneCount := 0 } }
      else validateWithBones g m bones := by
  unfold validateWithMesh
  rw [hs]

end FBXValidator

/-! ## Claim theorems -/

/-- C1. The spec's exclusion invariant fails on the code: the upper-arm
rule `/(left.*arm(?!fur)|…)(?!forearm)/i` precedes the forearm rule, and its
negative lookaheads are applied at the *end* of the group match (where, for a
name ending in `…ForeArm`, nothing follows), so a bone named to indicate a
forearm segment is classified as the upper-arm target `LeftArm`/`RightArm`. -/
theorem autoMapBones_forearm_misclassified :
    BoneMapper.autoMapBones ["LeftForeArm"] = [("LeftForeArm", "LeftArm")] ∧
    BoneMapper.classify "mixamorigLeftForeArm" = some "LeftArm" ∧
    BoneMapper.classify "RightForeArm" = some "RightArm" := by
  decide

/-- C2. `applyMapping` is not idempotent for a mapping produced by
`autoMapBones`: over the skeleton `["LeftForeArm", "l_forearm"]` the mapping
is `LeftForeArm → LeftArm, l_forearm → LeftForeArm`; the first run yields
`["LeftArm", "LeftForeArm"]`, and the second run finds the freshly written
name `LeftForeArm` again matched by the stale first entry and rewrites it,
yielding `["LeftArm", "LeftArm"]`. -/
theorem applyMapping_not_idempotent :
    BoneMapper.autoMapBones ["LeftForeArm", "l_forearm"] =
      [("LeftForeArm", "LeftArm"), ("l_forearm", "LeftForeArm")] ∧
    BoneMapper.applyMapping ["LeftForeArm", "l_forearm"]
        (BoneMapper.autoMapBones ["LeftForeArm", "l_forearm"]) =
      ["LeftArm", "LeftForeArm"] ∧
    BoneMapper.applyMapping
        (BoneMapper.applyMapping ["LeftForeArm", "l_forearm"]
          (BoneMapper.autoMapBones ["LeftForeArm", "l_forearm"]))
        (BoneMapper.autoMapBones ["LeftForeArm", "l_forearm"]) =
      ["LeftArm", "LeftArm"] ∧
    BoneMapper.applyMapping
        (BoneMapper.applyMapping ["LeftForeArm", "l_forearm"]
          (BoneMapper.autoMapBones ["LeftForeArm", "l_forearm"]))
        (BoneMapper.autoMapBones ["LeftForeArm", "l_forearm"]) ≠
      BoneMapper.applyMapping ["LeftForeArm", "l_forearm"]
        (BoneMapper.autoMapBones ["LeftForeArm", "l_forearm"]) := by
  decide

/-- C3. Priority invariant: any name matching one of the four anchored
exact-match rules of `BONE_PATTERNS` classifies to that rule's target — the
exact rules precede the loose substring rules and no earlier rule matches
their (finitely many, case-folded) accepted names — and in particular a bone
literally named `Spine1` maps to `Spine1`, never to the generic `Spine`. -/
theorem classify_exact_rule_wins (name : String) :
    (BoneMapper.hipsExact (BoneMapper.lcs name) = true →
      BoneMapper.classify name = some "Hips") ∧
    (BoneMapper.spine2Exact (BoneMapper.lcs name) = true →
      BoneMapper.classify name = some "Spine2") ∧
    (BoneMapper.spine1Exact (BoneMapper.lcs name) = true →
      BoneMapper.classify name = some "Spine1") ∧
    (BoneMapper.spineExact (BoneMapper.lcs name) = true →
      BoneMapper.classify name = some "Spine") ∧
    BoneMapper.classify "Spine1" = some "Spine1" := by
  refine ⟨fun h => ?_, fun h => ?_, fun h => ?_, fun h => ?_, by decide⟩
  · have h' : BoneMapper.lcs name = BoneMapper.w "armature" ∨
        BoneMapper.lcs name = BoneMapper.w "root" ∨
        BoneMapper.lcs name = BoneMapper.w "hips" ∨
        BoneMapper.lcs name = BoneMapper.w "mixamorighips" ∨
        BoneMapper.lcs name = BoneMapper.w "mixamorig:hips" ∨
        BoneMapper.lcs name = BoneMapper.w "mixamorig_hips" := by
      simpa [BoneMapper.hipsExact, BoneMapper.fullAny] using h
    show BoneMapper.classifyL (BoneMapper.lcs name) = some "Hips"
    rcases h' with h' | h' | h' | h' | h' | h' <;> rw [h'] <;> decide
  · have h' : BoneMapper.lcs name = BoneMapper.w "spine2" ∨
        BoneMapper.lcs name = BoneMapper.w "mixamorig:spine2" := by
      simpa [BoneMapper.spine2Exact, BoneMapper.fullAny] using h
    show BoneMapper.classifyL (BoneMapper.lcs name) = some "Spine2"
    rcases h' with h' | h' <;> rw [h'] <;> decide
  · have h' : BoneMapper.lcs name = BoneMapper.w "spine1" ∨
        BoneMapper.lcs name = BoneMapper.w "mixamorig:spine1" := by
      simpa [BoneMapper.spine1Exact, BoneMapper.fullAny] using h
    show BoneMapper.classifyL (BoneMapper.lcs name) = some "Spine1"
    rcases h' with h' | h' <;> rw [h'] <;> decide
  · have h' : BoneMapper.lcs name = BoneMapper.w "spine" ∨
        BoneMapper.lcs name = BoneMapper.w "mixamorig:spine" := by
      simpa [BoneMapper.spineExact, BoneMapper.fullAny] using h
    show BoneMapper.classifyL (BoneMapper.lcs name) = some "Spine"
    rcases h' with h' | h' <;> rw [h'] <;> decide

/-- Witness for C3: `Spine1` satisfies the exact spine1 rule and classifies
to `Spine1`. -/
theorem classify_exact_rule_wins_witness :
    BoneMapper.spine1Exact (BoneMapper.lcs "Spine1") = true ∧
    BoneMapper.classify "Spine1" = some "Spine1" :=
  ⟨by decide, (classify_exact_rule_wins "Spine1").2.2.1 (by decide)⟩

/-- C6. `validateBones` is valid exactly when every one of the seven
required canonical names occurs among the skeleton's bone names, and
`missingBones` is exactly the list of required names that do not occur. -/
theorem validateBones_correct (names : List String) :
    ((BoneMapper.validateBones names).isValid
        = BoneMapper.requiredBones.all fun r => names.contains r) ∧
    (BoneMapper.validateBones names).missingBones
        = BoneMapper.requiredBones.filter fun r => !(names.contains r) := by
  have hfil : (BoneMapper.requiredBones.filter fun r =>
        !((names.filter fun n => BoneMapper.requiredBones.contains n).contains r))
      = BoneMapper.requiredBones.filter fun r => !(names.contains r) :=
    List.filter_congr fun r hr => by
      rw [BoneMapper.contains_found_eq_contains names r hr]
  constructor
  · show (BoneMapper.requiredBones.filter fun r =>
        !((names.filter fun n => BoneMapper.requiredBones.contains n).contains r)).isEmpty
      = BoneMapper.requiredBones.all fun r => names.contains r
    rw [hfil, BoneMapper.isEmpty_filter_not]
  · exact hfil

/-- C4. `applyMappingToAnimations` renames the tracks of every clip
elementwise, and a track whose name splits at its first `'.'` into a prefix
that is a mapping key and a suffix is rewritten to the canonical name
followed by the original suffix verbatim, separator included. -/
theorem track_rewrite_preserves_suffix (m : List (String × String))
    (clips : List (List String)) (j k : Nat) (pre suf : List Char) (c : String) :
    ((BoneMapper.applyMappingToAnimations clips m)[j]?.bind fun clip => clip[k]?)
      = ((clips[j]?.bind fun clip => clip[k]?).map (BoneMapper.rewriteTrack m)) ∧
    ((∀ ch ∈ pre, ch ≠ '.') → List.lookup (String.mk pre) m = some c →
      BoneMapper.rewriteTrack m (String.mk (pre ++ '.' :: suf))
        = String.mk (c.data ++ '.' :: suf)) := by
  constructor
  · unfold BoneMapper.applyMappingToAnimations
    rw [List.getElem?_map]
    cases clips[j]? with
    | none => rfl
    | some clip => simp [List.getElem?_map]
  · intro hpre hlook
    have hsplit := BoneMapper.takeWhile_dropWhile_dot pre suf hpre
    unfold BoneMapper.rewriteTrack
    show (match (pre ++ '.' :: suf).dropWhile (fun ch => ch != '.') with
      | [] => String.mk (pre ++ '.' :: suf)
      | suf' =>
        match List.lookup (String.mk ((pre ++ '.' :: suf).takeWhile fun ch => ch != '.')) m with
        | some c' => String.mk (c'.data ++ suf')
        | none => String.mk (pre ++ '.' :: suf))
      = String.mk (c.data ++ '.' :: suf)
    rw [hsplit.1, hsplit.2, hlook]

/-- Witness for C4: `mixamorigHips.position` under `mixamorigHips → Hips`
becomes exactly `Hips.position`. -/
theorem track_rewrite_preserves_suffix_witness :
    BoneMapper.rewriteTrack [("mixamorigHips", "Hips")]
        (String.mk ("mixamorigHips".data ++ '.' :: "position".data))
      = String.mk ("Hips".data ++ '.' :: "position".data) :=
  (track_rewrite_preserves_suffix [("mixamorigHips", "Hips")] [] 0 0
    "mixamorigHips".data "position".data "Hips").2 (by decide) (by decide)

/-- C5. Frame property: `applyMapping` keeps the bone list's length and
leaves every bone whose name is not a mapping key byte-identical;
`rewriteTrack` leaves separator-less tracks and tracks whose prefix is not a
mapping key byte-identical; `applyMappingToAnimations` keeps the number of
clips and each clip's number of tracks (nothing is added, removed, or
reordered). -/
theorem mapping_frame_property (m : List (String × String)) (bones : List String)
    (clips : List (List String)) (i j : Nat) (b name : String) :
    ((BoneMapper.applyMapping bones m).length = bones.length) ∧
    (bones[i]? = some b → (∀ p ∈ m, b ≠ p.1) →
      (BoneMapper.applyMapping bones m)[i]? = some b) ∧
    ((∀ ch ∈ name.data, ch ≠ '.') → BoneMapper.rewriteTrack m name = name) ∧
    (∀ pre suf : List Char, (∀ ch ∈ pre, ch ≠ '.') →
      List.lookup (String.mk pre) m = none →
      BoneMapper.rewriteTrack m (String.mk (pre ++ '.' :: suf))
        = String.mk (pre ++ '.' :: suf)) ∧
    ((BoneMapper.applyMappingToAnimations clips m).length = clips.length) ∧
    ((BoneMapper.applyMappingToAnimations clips m)[j]?.map List.length
      = (clips[j]?).map List.length) := by
  refine ⟨BoneMapper.applyMapping_length m bones,
    fun hb hk => BoneMapper.applyMapping_getElem?_not_key m bones i b hb hk,
    fun h => ?_, fun pre suf hpre hlook => ?_, ?_, ?_⟩
  · unfold BoneMapper.rewriteTrack
    have hnil : name.data.dropWhile (fun ch => ch != '.') = [] :=
      List.dropWhile_eq_nil_iff.mpr fun x hx => by simpa using h x hx
    rw [hnil]
  · have hsplit := BoneMapper.takeWhile_dropWhile_dot pre suf hpre
    unfold BoneMapper.rewriteTrack
    show (match (pre ++ '.' :: suf).dropWhile (fun ch => ch != '.') with
      | [] => String.mk (pre ++ '.' :: suf)
      | suf' =>
        match List.lookup (String.mk ((pre ++ '.' :: suf).takeWhile fun ch => ch != '.')) m with
        | some c' => String.mk (c'.data ++ suf')
        | none => String.mk (pre ++ '.' :: suf))
      = String.mk (pre ++ '.' :: suf)
    rw [hsplit.1, hsplit.2, hlook]
  · unfold BoneMapper.applyMappingToAnimations
    rw [List.length_map]
  · unfold BoneMapper.applyMappingToAnimations
    rw [List.getElem?_map]
    cases clips[j]? with
    | none => rfl
    | some clip => simp

/-- Witness for C5: an unmapped bone, a separator-less track, and a track
with an unmapped prefix all pass through unchanged. -/
theorem mapping_frame_property_witness :
    (BoneMapper.applyMapping ["Stray"] [("mixamorigHips", "Hips")])[0]? = some "Stray" ∧
    BoneMapper.rewriteTrack [("mixamorigHips", "Hips")] "nodot" = "nodot" ∧
    BoneMapper.rewriteTrack [("mixamorigHips", "Hips")]
        (String.mk ("Other".data ++ '.' :: "scale".data))
      = String.mk ("Other".data ++ '.' :: "scale".data) :=
  ⟨(mapping_frame_property [("mixamorigHips", "Hips")] ["Stray"] [] 0 0 "Stray" "nodot").2.1
      (by decide) (by decide),
   (mapping_frame_property [("mixamorigHips", "Hips")] ["Stray"] [] 0 0 "Stray" "nodot").2.2.1
      (by decide),
   (mapping_frame_property [("mixamorigHips", "Hips")] ["Stray"] [] 0 0 "Stray" "nodot").2.2.2.1
      "Other".data "scale".data (by decide) (by decide)⟩

/-- C7 counterexample. The claim "returns with exactly the no-skeleton
critical error" fails: the bounding-box size check runs *before* the skeleton
check, so a zero-size skeleton-less mesh yields the zero-size error as well. -/
theorem validator_no_skeleton_counterexample :
    (FBXValidator.validateFBXGroup Examples.gNoSkelZero).isValid = false ∧
    (FBXValidator.validateFBXGroup Examples.gNoSkelZero).errors
      = [FBXValidator.VErr.zeroSize, FBXValidator.VErr.noSkeleton] ∧
    (FBXValidator.validateFBXGroup Examples.gNoSkelZero).errors
      ≠ [FBXValidator.VErr.noSkeleton] := by
  decide

/-- C7 amended. For an asset whose (selected) skinned mesh has no
skeleton, the validator returns at the skeleton check: provided the mesh
passed the earlier size check (nonzero along every axis), the report is
invalid with exactly the no-skeleton critical error, the warnings are exactly
those of the already-run size check, and no bone-count, bone-name, animation,
or texture checks are attempted (their info fields keep their defaults). -/
theorem validator_no_skeleton_amended (g : FBXValidator.FBXGroup) (m : FBXValidator.SMesh)
    (hm : (FBXValidator.objsMeshes g.children).getLast? = some m)
    (hs : m.skeleton = none)
    (hx : m.sizeX ≠ 0) (hy : m.sizeY ≠ 0) (hz : m.sizeZ ≠ 0) :
    FBXValidator.validateFBXGroup g =
      { isValid := false
        errors := [FBXValidator.VErr.noSkeleton]
        warnings := FBXValidator.sizeWarns m
        info := FBXValidator.meshInfo m } := by
  have hz' : FBXValidator.sizeErrs m = [] := by
    unfold FBXValidator.sizeErrs
    rw [if_neg]
    rintro (h | h | h) <;> [exact hx h; exact hy h; exact hz h]
  rw [FBXValidator.validateFBXGroup_last g m hm,
    FBXValidator.validateWithMesh_skeleton_none g m hs, hz']
  rfl

/-- Witness for C7's amended theorem at a healthy-size skeleton-less mesh. -/
theorem validator_no_skeleton_amended_witness :
    FBXValidator.validateFBXGroup Examples.gNoSkelOk =
      { isValid := false
        errors := [FBXValidator.VErr.noSkeleton]
        warnings := FBXValidator.sizeWarns Examples.meshNoSkelOk
        info := FBXValidator.meshInfo Examples.meshNoSkelOk } :=
  validator_no_skeleton_amended Examples.gNoSkelOk Examples.meshNoSkelOk
    (by decide) (by decide) (by decide) (by decide) (by decide)

/-- C8. A skinned mesh whose skeleton has 5 bones (below the 20-bone
minimum) always yields an invalid report containing the bone-count-threshold
critical error. -/
theorem validator_low_bone_count (g : FBXValidator.FBXGroup) (m : FBXValidator.SMesh)
    (bones : List String)
    (hm : (FBXValidator.objsMeshes g.children).getLast? = some m)
    (hs : m.skeleton = some bones)
    (h5 : bones.length = 5) :
    (FBXValidator.validateFBXGroup g).isValid = false ∧
    FBXValidator.VErr.tooFewBones ∈ (FBXValidator.validateFBXGroup g).errors := by
  have hlt : bones.length < FBXValidator.MIN_BONE_COUNT := by
    rw [h5]; decide
  rw [FBXValidator.validateFBXGroup_last g m hm,
    FBXValidator.validateWithMesh_skeleton_some g m bones hs,
    if_neg (by omega : ¬ bones.length = 0)]
  simp only [FBXValidator.validateWithBones, if_pos hlt]
  constructor
  · exact isEmpty_append_singleton _ _
  · exact List.mem_append_right _ (List.mem_singleton.mpr rfl)

/-- Witness for C8 at a concrete five-bone asset. -/
theorem validator_low_bone_count_witness :
    (FBXValidator.validateFBXGroup Examples.gFive).isValid = false ∧
    FBXValidator.VErr.tooFewBones ∈ (FBXValidator.validateFBXGroup Examples.gFive).errors :=
  validator_low_bone_count Examples.gFive Examples.meshFive ["a", "b", "c", "d", "e"]
    (by decide) (by decide) (by decide)

/-- C9 counterexample. With two skinned meshes in the graph the claim
"the first skinned-mesh node is selected" fails: the first mesh has 30 bones,
yet the report's bone count is the 5 of the last mesh (the traversal callback
overwrites its selection at every skinned-mesh node). -/
theorem validator_mesh_selection_counterexample :
    FBXValidator.firstSkinnedMesh Examples.gTwoMeshes = some Examples.meshThirty ∧
    Examples.meshThirty.skeleton.map List.length = some 30 ∧
    (FBXValidator.validateFBXGroup Examples.gTwoMeshes).info.boneCount = 5 ∧
    (5 : Nat) ≠ 30 := by
  decide

/-- C9 amended. The validator selects the *last* skinned-mesh node in
tree-traversal (preorder) order, and the info record's mesh fields (presence,
measured size, bone count) refer to that node. -/
theorem validator_uses_last_mesh (g : FBXValidator.FBXGroup) (m : FBXValidator.SMesh)
    (hm : (FBXValidator.objsMeshes g.children).getLast? = some m) :
    (FBXValidator.validateFBXGroup g).info.hasMesh = true ∧
    (FBXValidator.validateFBXGroup g).info.meshSize = some (m.sizeX, m.sizeY, m.sizeZ) ∧
    (FBXValidator.validateFBXGroup g).info.boneCount = (m.skeleton.map List.length).getD 0 := by
  rw [FBXValidator.validateFBXGroup_last g m hm]
  cases hs : m.skeleton with
  | none =>
    rw [FBXValidator.validateWithMesh_skeleton_none g m hs]
    simp [FBXValidator.meshInfo, FBXValidator.emptyInfo]
  | some bones =>
    rw [FBXValidator.validateWithMesh_skeleton_some g m bones hs]
    by_cases hb : bones.length = 0
    · rw [if_pos hb]
      simp [hb, FBXValidator.meshInfo, FBXValidator.emptyInfo]
    · rw [if_neg hb]
      simp [FBXValidator.validateWithBones, FBXValidator.meshInfo, FBXValidator.emptyInfo]

/-- Witness for C9's amended theorem at the single-mesh five-bone asset. -/
theorem validator_uses_last_mesh_witness :
    (FBXValidator.validateFBXGroup Examples.gFive).info.hasMesh = true ∧
    (FBXValidator.validateFBXGroup Examples.gFive).info.meshSize
      = some (Examples.meshFive.sizeX, Examples.meshFive.sizeY, Examples.meshFive.sizeZ) ∧
    (FBXValidator.validateFBXGroup Examples.gFive).info.boneCount
      = (Examples.meshFive.skeleton.map List.length).getD 0 :=
  validator_uses_last_mesh Examples.gFive Examples.meshFive (by decide)

/-- C10. On every return path of `validateFBXGroup` — missing mesh,
missing skeleton, zero bones, and the full pass — the report satisfies
`isValid = true` iff its error list is empty. -/
theorem report_isValid_iff_no_errors (g : FBXValidator.FBXGroup) :
    (FBXValidator.validateFBXGroup g).isValid
      = (FBXValidator.validateFBXGroup g).errors.isEmpty := by
  cases hm : (FBXValidator.objsMeshes g.children).getLast? with
  | none =>
    rw [FBXValidator.validateFBXGroup_no_mesh g hm]
    rfl
  | some mesh =>
    rw [FBXValidator.validateFBXGroup_last g mesh hm]
    cases hs : mesh.skeleton with
    | none =>
      rw [FBXValidator.validateWithMesh_skeleton_none g mesh hs]
      exact (isEmpty_append_singleton (FBXValidator.sizeErrs mesh) _).symm
    | some bones =>
      rw [FBXValidator.validateWithMesh_skeleton_some g mesh bones hs]
      by_cases hb : bones.length = 0
      · rw [if_pos hb]
        exact (isEmpty_append_singleton (FBXValidator.sizeErrs mesh) _).symm
      · rw [if_neg hb]
        rfl

